import Mathlib

/-!
# Verification of the roleplay-platform viewer/message bookkeeping

Shallow embedding of the SQL trigger functions, row-level-security policies
and client-side bookkeeping of the `rp-platform` repository:

* `update_session_max_viewers` and the viewer triggers
  (`add_session_viewers.sql`, `complete_session_viewers_migration.sql`);
* `calculate_response_time` and the message policies (`session_schema.sql`);
* the client logic of `src/app/session/[sessionId]/page.tsx`
  (`loadViewers`, `trackViewer`, `checkInactivity`, `sendInactivityReminder`,
  the access check in `load`), the DM inbox unread count
  (`src/app/dm/page.tsx`), the sessions page (`SessionsPage`) and
  `openDmWith`.

Timestamps are embedded as `Int` (epoch milliseconds for the client-side
code, epoch seconds for `calculate_response_time`, matching each source's
unit).  User and row ids are `Nat`.
-/

/-! ## Generic descending sort (embeds `ORDER BY ... DESC` / `Array.sort`) -/

/-- Insert `x` into `l` keeping keys in descending order. -/
def insertDescBy (key : α → Int) (x : α) : List α → List α
  | [] => [x]
  | y :: ys => if key y ≤ key x then x :: y :: ys else y :: insertDescBy key x ys

/-- Sort a list by `key`, largest key first.  Embeds both the SQL
`ORDER BY key DESC` clauses and the client-side
`sort((a, b) => keyB - keyA)` calls. -/
def sortDescBy (key : α → Int) : List α → List α
  | [] => []
  | x :: xs => insertDescBy key x (sortDescBy key xs)

/-- A list is sorted with keys descending. -/
def SortedDescBy (key : α → Int) (l : List α) : Prop :=
  l.Pairwise (fun a b => key b ≤ key a)

/-! ## Viewer presence state (`rp_session_viewers` rows of one session) -/

/-- One row of `rp_session_viewers`, restricted to a fixed session
(the `session_id` column is implicit; `UNIQUE(session_id, user_id)` becomes
uniqueness of `user_id` in the row list). -/
structure ViewerRow where
  user_id : Nat
  joined_at : Int
  last_seen : Int
deriving DecidableEq

/-- The per-session viewer state: the `rp_session_viewers` rows of the
session together with the session's `max_viewers` column. -/
structure ViewerState where
  viewers : List ViewerRow
  max_viewers : Nat
deriving DecidableEq

/-- Fresh session: no viewer rows, `max_viewers INTEGER DEFAULT 0`. -/
def initViewerState : ViewerState := { viewers := [], max_viewers := 0 }

/-- The body of the `update_session_max_viewers` trigger function: given the
current viewer-row count and the session's current `max_viewers`, update
`max_viewers` only when the count is higher (only increase, never decrease). -/
def update_session_max_viewers (current_viewer_count current_max_viewers : Nat) : Nat :=
  if current_viewer_count > current_max_viewers then current_viewer_count
  else current_max_viewers

/-- SQL `INSERT` of a viewer row.  On a `UNIQUE(session_id, user_id)`
conflict the statement fails and nothing changes; otherwise the row is added
and the `AFTER INSERT` trigger `trigger_update_max_viewers_insert` runs
`update_session_max_viewers`. -/
def insertViewer (s : ViewerState) (u : Nat) (j t : Int) : ViewerState :=
  if s.viewers.any (fun v => v.user_id = u) then s
  else
    let vs := ViewerRow.mk u j t :: s.viewers
    { viewers := vs,
      max_viewers := update_session_max_viewers vs.length s.max_viewers }

/-- SQL `UPDATE ... SET last_seen = t WHERE user_id = u` on the session's
viewer rows.  The `AFTER UPDATE` trigger `trigger_update_max_viewers_update`
fires only `WHEN (OLD.last_seen IS DISTINCT FROM NEW.last_seen)`, i.e. only
when the touched row's `last_seen` actually changes. -/
def updateLastSeen (s : ViewerState) (u : Nat) (t : Int) : ViewerState :=
  let fired := s.viewers.any (fun v => v.user_id = u && v.last_seen != t)
  let vs := s.viewers.map (fun v => if v.user_id = u then { v with last_seen := t } else v)
  { viewers := vs,
    max_viewers :=
      if fired then update_session_max_viewers vs.length s.max_viewers
      else s.max_viewers }

/-- SQL `DELETE ... WHERE user_id = u`.  No trigger is attached to deletes,
so `max_viewers` is untouched. -/
def deleteViewer (s : ViewerState) (u : Nat) : ViewerState :=
  { viewers := s.viewers.filter (fun v => v.user_id ≠ u),
    max_viewers := s.max_viewers }

/-- The three SQL statements the client issues against
`rp_session_viewers`. -/
inductive ViewerOp where
  | insert (u : Nat) (j t : Int)
  | update (u : Nat) (t : Int)
  | delete (u : Nat)
deriving DecidableEq

/-- Apply one viewer operation (statement plus its triggers). -/
def applyViewerOp (op : ViewerOp) (s : ViewerState) : ViewerState :=
  match op with
  | .insert u j t => insertViewer s u j t
  | .update u t => updateLastSeen s u t
  | .delete u => deleteViewer s u

/-- Run a list of viewer operations from a state. -/
def execViewerOps (s : ViewerState) : List ViewerOp → ViewerState
  | [] => s
  | op :: ops => execViewerOps (applyViewerOp op s) ops

/-- The viewer-row counts observed after each operation of a run. -/
def traceCounts (s : ViewerState) : List ViewerOp → List Nat
  | [] => []
  | op :: ops => (applyViewerOp op s).viewers.length :: traceCounts (applyViewerOp op s) ops

/-! ## `loadViewers` and the viewer heartbeat
(`src/app/session/[sessionId]/page.tsx`, viewer-tracking effect) -/

/-- `twoMinutesAgo = new Date(Date.now() - 2 * 60 * 1000)`: a viewer row
passes the `.gte("last_seen", twoMinutesAgo)` filter. -/
def isActiveViewer (now : Int) (v : ViewerRow) : Bool :=
  now - 2 * 60 * 1000 ≤ v.last_seen

/-- A row that is not one of the two session participants
(`viewer.user_id !== session.user_a && viewer.user_id !== session.user_b`). -/
def isNonParticipant (userA userB : Nat) (v : ViewerRow) : Bool :=
  v.user_id ≠ userA && v.user_id ≠ userB

/-- The `loadViewers` pipeline: fetch rows with `last_seen` within the past
2 minutes ordered by `joined_at` descending with `.limit(20)`, filter out
the participants, sort by `joined_at` descending again, and keep the first
10 for display. -/
def loadViewers (rows : List ViewerRow) (userA userB : Nat) (now : Int) : List ViewerRow :=
  let fetched := (sortDescBy (fun v => v.joined_at) (rows.filter (isActiveViewer now))).take 20
  let nonParticipantViewers := fetched.filter (isNonParticipant userA userB)
  (sortDescBy (fun v => v.joined_at) nonParticipantViewers).take 10

/-- The active non-participant viewer rows, i.e. the set the spec says the
list shows. -/
def activeNonParticipants (rows : List ViewerRow) (userA userB : Nat) (now : Int) :
    List ViewerRow :=
  (rows.filter (isActiveViewer now)).filter (isNonParticipant userA userB)

/-- `trackViewer` heartbeat period: `setInterval(..., 30000)`. -/
def heartbeatIntervalMs : Nat := 30000

/-- One heartbeat tick: `update({ last_seen: now }).eq("session_id", ...)
.eq("user_id", me)` refreshes the user's own `last_seen`. -/
def heartbeatTick (rows : List ViewerRow) (me : Nat) (now : Int) : List ViewerRow :=
  rows.map (fun v => if v.user_id = me then { v with last_seen := now } else v)

/-! ## Unread counts (`src/app/dm/page.tsx` and the sessions page) -/

/-- A direct message (`dm_messages`) or session message
(`rp_session_messages`) as the unread-count queries see it: only the sender
and timestamp matter. -/
structure Msg where
  sender_id : Nat
  created_at : Int
deriving DecidableEq

/-- A row of the read-tracking tables `dm_thread_reads` /
`rp_session_reads`; the `last_read_at` column is nullable. -/
structure ReadRow where
  last_read_at : Option Int
deriving DecidableEq

/-- The unread-count computation shared by `DmInboxPage.load` and
`SessionsPage.load`: if a read record with a truthy `last_read_at` exists,
count the other user's messages strictly newer than it
(`.eq("sender_id", otherUserId).gt("created_at", readData.last_read_at)`);
otherwise count all of the other user's messages. -/
def computeUnread (msgs : List Msg) (otherUserId : Nat) (readData : Option ReadRow) : Nat :=
  match readData with
  | some rd =>
    match rd.last_read_at with
    | some t => (msgs.filter (fun m => m.sender_id = otherUserId && m.created_at > t)).length
    | none => (msgs.filter (fun m => m.sender_id = otherUserId)).length
  | none => (msgs.filter (fun m => m.sender_id = otherUserId)).length

/-! ## Sessions and messages (`session_schema.sql`) -/

/-- A row of `rp_sessions`, with the columns the embedded logic reads.
`max_viewers` lives in `ViewerState`; unrelated columns are omitted. -/
structure SessionRow where
  id : Nat
  user_a : Nat
  user_b : Nat
  status : String
  is_active : Bool
  is_public : Bool
  last_message_at : Option Int
  reminder_sent_at : Option Int
deriving DecidableEq

/-- A row of `rp_session_messages` (columns used by the embedded logic). -/
structure MessageRow where
  id : Nat
  session_id : Nat
  sender_id : Nat
  message_type : String
  created_at : Int
deriving DecidableEq

/-- The `CHECK (message_type IN ('ooc', 'narration'))` constraint on
`rp_session_messages`. -/
def messageTypeOk (message_type : String) : Bool :=
  message_type = "ooc" || message_type = "narration"

/-- The `CHECK (status IN ('active', 'closed'))` constraint on
`rp_sessions.status`. -/
def statusCheckOk (status : String) : Bool :=
  status = "active" || status = "closed"

/-- `auth.uid()`: `some u` for an authenticated user, `none` for `anon`
(SQL `NULL`, which makes every `auth.uid() = x` comparison non-true). -/
def AuthUid : Type := Option Nat

/-- The RLS policy `rp_session_messages_insert_sender`:
`auth.uid() = sender_id` and the sender is `user_a` or `user_b` of the
message's session. -/
def canInsertMessage (sessions : List SessionRow) (auth : Option Nat) (m : MessageRow) : Bool :=
  match auth with
  | some uid =>
    uid = m.sender_id &&
      sessions.any (fun s => s.id = m.session_id && (uid = s.user_a || uid = s.user_b))
  | none => false

/-- One attempted `INSERT` into `rp_session_messages`: the row is stored
only when the RLS insert policy and the `message_type` CHECK constraint
both accept it. -/
def applyMessageInsert (sessions : List SessionRow) (stored : List MessageRow)
    (auth : Option Nat) (m : MessageRow) : List MessageRow :=
  if canInsertMessage sessions auth m && messageTypeOk m.message_type then m :: stored
  else stored

/-- The `rp_session_messages` contents produced by a sequence of insert
attempts (each a pair of the caller's `auth.uid()` and the row). -/
def runMessageInserts (sessions : List SessionRow) (stored : List MessageRow) :
    List (Option Nat × MessageRow) → List MessageRow
  | [] => stored
  | (auth, m) :: rest =>
    runMessageInserts sessions (applyMessageInsert sessions stored auth m) rest

/-! ## Session page access check (`SessionPage.load`) and select policies -/

/-- The permissive `SELECT` policies on `rp_sessions`:
`rp_sessions_select_participants` (`auth.uid() = user_a OR auth.uid() =
user_b`) or `Anyone can view public sessions` (`is_public = true`). -/
def canSelectSession (auth : Option Nat) (s : SessionRow) : Bool :=
  (match auth with
   | some uid => uid = s.user_a || uid = s.user_b
   | none => false) || s.is_public

/-- Outcome of `SessionPage.load` up to the point where messages are
fetched: either an error (no messages are loaded) or admission, in public
view or participant view. -/
inductive LoadOutcome where
  | notFound
  | accessDenied
  | needLogin
  | ok (publicView : Bool)
deriving DecidableEq

/-- `SessionPage.load`: the authentication check runs first, and every
unauthenticated visitor is redirected to `/login` before the session is
ever fetched (both the `userError` and the `!userRes.user` paths return
early), so the later `!userId` access branch is unreachable.  For an
authenticated user the `.single()` select fails under RLS when no policy
admits the row (`"Session not found"`), and a non-participant is admitted
only on a public session (`"You don't have access to this session"`
otherwise). -/
def loadSessionOutcome (auth : Option Nat) (s : SessionRow) : LoadOutcome :=
  match auth with
  | none => .needLogin
  | some uid =>
    if !canSelectSession (some uid) s then .notFound
    else if s.user_a = uid || s.user_b = uid then .ok false
    else if s.is_public then .ok true
    else .accessDenied

/-- An outcome under which `load` returns before loading any message. -/
def LoadOutcome.isError : LoadOutcome → Bool
  | .notFound => true
  | .accessDenied => true
  | .needLogin => true
  | .ok _ => false

/-! ## Inactivity reminders (`checkInactivity` / `sendInactivityReminder`) -/

/-- The client state `checkInactivity` reads: the loaded session row plus
the `inactivityReminder` React state (the reminder banner, `none` when no
reminder is pending on screen). -/
structure InactivityCtx where
  session : SessionRow
  inactivityReminder : Option String
deriving DecidableEq

/-- `checkInactivity` at clock time `now` (epoch ms): returns early when
`last_message_at` is null; sends a reminder when at least 5 minutes have
passed since the last message (`(now - lastMessage) / 60000 ≥ 5`, i.e.
`now - lastMessage ≥ 5 * 60 * 1000`), no banner is pending, and either
`reminder_sent_at` is null or it is more than an hour old
(`now - reminderSent > 60 * 60 * 1000`). -/
def shouldSendReminder (now : Int) (c : InactivityCtx) : Bool :=
  match c.session.last_message_at with
  | none => false
  | some lastMessage =>
    (now - lastMessage ≥ 5 * 60 * 1000) &&
    c.inactivityReminder = none &&
    (match c.session.reminder_sent_at with
     | none => true
     | some reminderSent => now - reminderSent > 60 * 60 * 1000)

/-- The effect of a sent reminder: the inserted `rp_session_messages` row's
`message_type`, and the new `reminder_sent_at` written to the session. -/
structure ReminderEffect where
  insertedType : String
  newReminderSentAt : Int
deriving DecidableEq

/-- One `checkInactivity` tick: when the guard holds,
`sendInactivityReminder` inserts an `"ooc"` message and sets
`reminder_sent_at` to the current time; otherwise nothing happens. -/
def checkInactivityTick (now : Int) (c : InactivityCtx) : Option ReminderEffect :=
  if shouldSendReminder now c then
    some { insertedType := "ooc", newReminderSentAt := now }
  else none

/-! ## `openDmWith` (`src/lib/dm.ts`, shipped in `fix_schema_errors.sql`) -/

/-- A row of `dm_threads`. -/
structure DmThread where
  id : Nat
  user_a : Nat
  user_b : Nat
  created_at : Int
deriving DecidableEq

/-- The `.or(and(user_a.eq.me,user_b.eq.other),and(user_a.eq.other,
user_b.eq.me))` filter: the thread links `me` and `other` in either
orientation. -/
def linksPair (me other : Nat) (t : DmThread) : Bool :=
  (t.user_a = me && t.user_b = other) || (t.user_a = other && t.user_b = me)

/-- `openDmWith`: look for existing threads between the two users ordered
by `created_at` descending with `.limit(1)`; reuse the newest one if any,
otherwise insert a fresh thread (with the next id and the current time) and
return its id.  Returns the thread id and the resulting `dm_threads`
table. -/
def openDmWith (threads : List DmThread) (me other : Nat) (freshId : Nat) (now : Int) :
    Nat × List DmThread :=
  match sortDescBy (fun t => t.created_at) (threads.filter (linksPair me other)) with
  | t :: _ => (t.id, threads)
  | [] =>
    let inserted : DmThread := { id := freshId, user_a := me, user_b := other, created_at := now }
    (inserted.id, threads ++ [inserted])

/-! ## `calculate_response_time` (`session_schema.sql`) -/

/-- A row of `rp_response_times`. -/
structure ResponseTimeRow where
  user_id : Nat
  session_id : Nat
  response_time_seconds : Int
deriving DecidableEq

/-- The previous-message query of `calculate_response_time`: messages of
the same session from a different sender, strictly earlier than the new
message, ordered by `created_at` descending, `LIMIT 1`. -/
def prevCandidates (msgs : List MessageRow) (newMsg : MessageRow) : List MessageRow :=
  msgs.filter (fun p =>
    p.session_id = newMsg.session_id &&
    p.sender_id ≠ newMsg.sender_id &&
    p.created_at < newMsg.created_at)

/-- The `AFTER INSERT` trigger body `calculate_response_time` (timestamps
in whole epoch seconds, so `EXTRACT(EPOCH FROM ...)::INTEGER` is exact
subtraction): when the session's `is_active` is true and a previous message
from a different sender exists, insert an `rp_response_times` row with the
difference of the two `created_at`; always set the session's
`last_message_at` to the new message's `created_at`.  Returns the inserted
response-time row (if any) and the updated `rp_sessions` table. -/
def calculate_response_time (sessions : List SessionRow) (msgs : List MessageRow)
    (newMsg : MessageRow) : Option ResponseTimeRow × List SessionRow :=
  let sessionIsActive := (sessions.find? (fun s => s.id = newMsg.session_id)).map (·.is_active)
  let respRow :=
    if sessionIsActive = some true then
      match sortDescBy (fun p => p.created_at) (prevCandidates msgs newMsg) with
      | prev :: _ =>
        some { user_id := newMsg.sender_id, session_id := newMsg.session_id,
               response_time_seconds := newMsg.created_at - prev.created_at }
      | [] => none
    else none
  let newSessions := sessions.map (fun s =>
    if s.id = newMsg.session_id then { s with last_message_at := some newMsg.created_at } else s)
  (respRow, newSessions)

/-! ## Sessions page status filter (`SessionsPage`) -/

/-- The filter predicate of the sessions page:
`if (filter === "all") return true; return session.status === filter`. -/
def sessionMatchesFilter (status filter : String) : Bool :=
  if filter = "all" then true else status = filter

/-! ## `trackViewer` guard and viewer insert policy (anonymous visitors) -/

/-- The row `trackViewer` upserts for the current user. -/
structure ViewerUpsert where
  user_id : Nat
  last_seen : Int
deriving DecidableEq

/-- `trackViewer`: `if (!me) return;` — an unauthenticated visitor issues
no upsert at all; an authenticated one upserts their own row with a fresh
`last_seen`. -/
def trackViewerUpsert (me : Option Nat) (now : Int) : Option ViewerUpsert :=
  match me with
  | none => none
  | some uid => some { user_id := uid, last_seen := now }

/-- The RLS policy `Users can join as viewers` on `rp_session_viewers`:
`WITH CHECK (auth.uid() = user_id)`; for `anon`, `auth.uid()` is `NULL` and
the comparison is never true. -/
def canInsertViewer (auth : Option Nat) (row : ViewerUpsert) : Bool :=
  match auth with
  | some uid => uid = row.user_id
  | none => false

/-- A viewer insert guarded by the RLS insert policy: a rejected insert
stores nothing and fires no trigger, so the state (including
`max_viewers`) is unchanged. -/
def guardedInsertViewer (auth : Option Nat) (s : ViewerState) (row : ViewerUpsert)
    (joined : Int) : ViewerState :=
  if canInsertViewer auth row then insertViewer s row.user_id joined row.last_seen else s

/-! ## Spec-side unread count (claim C2) -/

/-- The watermark the spec speaks about: the user's `last_read_at`, when a
read record with a non-null `last_read_at` exists. -/
def readWatermark (readData : Option ReadRow) : Option Int :=
  readData.bind (fun rd => rd.last_read_at)

/-- The unread count as the spec sentence states it: with a watermark,
the number of the other user's messages strictly newer than it; without
one, all of the other user's messages. -/
def specUnreadCount (msgs : List Msg) (otherUserId : Nat) (watermark : Option Int) : Nat :=
  match watermark with
  | some t => (msgs.filter (fun m => m.sender_id = otherUserId && t < m.created_at)).length
  | none => (msgs.filter (fun m => m.sender_id = otherUserId)).length

/-- A concrete `rp_session_viewers` population: eleven viewers (user ids 1
to 11, joined in that order), all seen at time 100000, none of them a
participant of the session (whose participants are users 100 and 101). -/
def c3Rows : List ViewerRow :=
  [ViewerRow.mk 1 1 100000, ViewerRow.mk 2 2 100000, ViewerRow.mk 3 3 100000,
   ViewerRow.mk 4 4 100000, ViewerRow.mk 5 5 100000, ViewerRow.mk 6 6 100000,
   ViewerRow.mk 7 7 100000, ViewerRow.mk 8 8 100000, ViewerRow.mk 9 9 100000,
   ViewerRow.mk 10 10 100000, ViewerRow.mk 11 11 100000]

/-! ## Lemmas about the descending sort -/

theorem perm_insertDescBy (key : α → Int) (x : α) :
    ∀ l : List α, List.Perm (insertDescBy key x l) (x :: l)
  | [] => by simp [insertDescBy]
  | y :: ys => by
    by_cases h : key y ≤ key x
    · simp [insertDescBy, h]
    · simp only [insertDescBy, if_neg h]
      exact ((perm_insertDescBy key x ys).cons y).trans (List.Perm.swap x y ys)

theorem perm_sortDescBy (key : α → Int) :
    ∀ l : List α, List.Perm (sortDescBy key l) l
  | [] => by simp [sortDescBy]
  | x :: xs => by
    exact (perm_insertDescBy key x _).trans ((perm_sortDescBy key xs).cons x)

theorem mem_sortDescBy (key : α → Int) (l : List α) (a : α) :
    a ∈ sortDescBy key l ↔ a ∈ l :=
  (perm_sortDescBy key l).mem_iff

theorem length_sortDescBy (key : α → Int) (l : List α) :
    (sortDescBy key l).length = l.length :=
  (perm_sortDescBy key l).length_eq

theorem sortedDescBy_insertDescBy (key : α → Int) (x : α) :
    ∀ l : List α, SortedDescBy key l → SortedDescBy key (insertDescBy key x l)
  | [], _ => by simp [insertDescBy, SortedDescBy]
  | y :: ys, hs => by
    rw [SortedDescBy, List.pairwise_cons] at hs
    by_cases h : key y ≤ key x
    · rw [insertDescBy, if_pos h]
      refine List.Pairwise.cons ?_ (List.Pairwise.cons hs.1 hs.2)
      intro b hb
      rcases List.mem_cons.mp hb with rfl | hb
      · exact h
      · exact le_trans (hs.1 b hb) h
    · rw [insertDescBy, if_neg h]
      refine List.Pairwise.cons ?_ (sortedDescBy_insertDescBy key x ys hs.2)
      intro b hb
      rcases List.mem_cons.mp ((perm_insertDescBy key x ys).mem_iff.mp hb) with rfl | hb
      · exact le_of_lt (lt_of_not_le h)
      · exact hs.1 b hb

theorem sortedDescBy_sortDescBy (key : α → Int) :
    ∀ l : List α, SortedDescBy key (sortDescBy key l)
  | [] => by simp [sortDescBy, SortedDescBy]
  | x :: xs => sortedDescBy_insertDescBy key x _ (sortedDescBy_sortDescBy key xs)

theorem sortedDescBy_sublist {key : α → Int} {l₁ l₂ : List α}
    (h : l₁.Sublist l₂) (hs : SortedDescBy key l₂) : SortedDescBy key l₁ :=
  List.Pairwise.sublist h hs

theorem sortDescBy_head_max (key : α → Int) (l : List α) (h : l ≠ []) :
    ∃ t rest, sortDescBy key l = t :: rest ∧ t ∈ l ∧ ∀ a ∈ l, key a ≤ key t := by
  cases hsort : sortDescBy key l with
  | nil =>
    have hlen := length_sortDescBy key l
    rw [hsort] at hlen
    exact absurd (List.length_eq_zero.mp hlen.symm) h
  | cons t rest =>
    refine ⟨t, rest, rfl, ?_, ?_⟩
    · exact (mem_sortDescBy key l t).mp (hsort ▸ List.mem_cons_self t rest)
    · intro a ha
      have hmem : a ∈ t :: rest := by
        rw [← hsort]
        exact (mem_sortDescBy key l a).mpr ha
      rcases List.mem_cons.mp hmem with rfl | hmem
      · exact le_refl _
      · have hsorted := sortedDescBy_sortDescBy key l
        rw [hsort, SortedDescBy, List.pairwise_cons] at hsorted
        exact hsorted.1 a hmem

/-! ## The `max_viewers` invariant (claim C1) -/

theorem update_session_max_viewers_eq_max (c m : Nat) :
    update_session_max_viewers c m = max m c := by
  unfold update_session_max_viewers
  split <;> omega

theorem maxViewers_mono (op : ViewerOp) (s : ViewerState) :
    s.max_viewers ≤ (applyViewerOp op s).max_viewers := by
  cases op with
  | insert u j t =>
    simp only [applyViewerOp, insertViewer]
    split
    · exact le_refl _
    · rw [update_session_max_viewers_eq_max]
      exact Nat.le_max_left _ _
  | update u t =>
    simp only [applyViewerOp, updateLastSeen]
    split
    · rw [update_session_max_viewers_eq_max]
      exact Nat.le_max_left _ _
    · exact le_refl _
  | delete u => exact le_refl _

theorem applyViewerOp_max_eq (op : ViewerOp) (s : ViewerState)
    (h : s.viewers.length ≤ s.max_viewers) :
    (applyViewerOp op s).max_viewers =
      max s.max_viewers (applyViewerOp op s).viewers.length := by
  cases op with
  | insert u j t =>
    simp only [applyViewerOp, insertViewer]
    split
    · exact (Nat.max_eq_left h).symm
    · rw [update_session_max_viewers_eq_max]
  | update u t =>
    simp only [applyViewerOp, updateLastSeen, List.length_map]
    split
    · rw [update_session_max_viewers_eq_max]
    · exact (Nat.max_eq_left h).symm
  | delete u =>
    simp only [applyViewerOp, deleteViewer]
    exact (Nat.max_eq_left (le_trans (List.length_filter_le _ _) h)).symm

theorem applyViewerOp_invariant (op : ViewerOp) (s : ViewerState)
    (h : s.viewers.length ≤ s.max_viewers) :
    (applyViewerOp op s).viewers.length ≤ (applyViewerOp op s).max_viewers := by
  rw [applyViewerOp_max_eq op s h]
  exact Nat.le_max_right _ _

theorem execViewerOps_max_eq (ops : List ViewerOp) :
    ∀ s : ViewerState, s.viewers.length ≤ s.max_viewers →
      (execViewerOps s ops).max_viewers = (traceCounts s ops).foldl max s.max_viewers := by
  induction ops with
  | nil =>
    intro s _
    simp [execViewerOps, traceCounts]
  | cons op rest ih =>
    intro s h
    simp only [execViewerOps, traceCounts, List.foldl_cons]
    rw [ih _ (applyViewerOp_invariant op s h), applyViewerOp_max_eq op s h]

/-- C1: under the viewer-table operations, `max_viewers` never decreases
(no trigger fires on delete and the trigger only ever raises the value);
after a successful viewer insert, and after a `last_seen` update that
actually changes some row, the trigger leaves `max_viewers` equal to the
maximum of its previous value and the session's current viewer-row count;
consequently, starting from a fresh session, `max_viewers` always equals
the lifetime peak of the simultaneous viewer-row count. -/
theorem c1_max_viewers_lifetime_peak :
    (∀ (op : ViewerOp) (s : ViewerState),
      s.max_viewers ≤ (applyViewerOp op s).max_viewers) ∧
    (∀ (s : ViewerState) (u : Nat) (j t : Int),
      (∀ v ∈ s.viewers, v.user_id ≠ u) →
      (insertViewer s u j t).max_viewers =
        max s.max_viewers (insertViewer s u j t).viewers.length) ∧
    (∀ (s : ViewerState) (u : Nat) (t : Int),
      (∃ v ∈ s.viewers, v.user_id = u ∧ v.last_seen ≠ t) →
      (updateLastSeen s u t).max_viewers =
        max s.max_viewers (updateLastSeen s u t).viewers.length) ∧
    (∀ ops : List ViewerOp,
      (execViewerOps initViewerState ops).max_viewers =
        (traceCounts initViewerState ops).foldl max 0) := by
  refine ⟨maxViewers_mono, ?_, ?_, ?_⟩
  · intro s u j t hfresh
    have hnone : s.viewers.any (fun v => v.user_id = u) = false := by
      simp only [List.any_eq_false, decide_eq_true_eq]
      exact hfresh
    simp only [insertViewer, hnone, Bool.false_eq_true, if_false]
    rw [update_session_max_viewers_eq_max]
  · intro s u t hhit
    have hfired : s.viewers.any (fun v => v.user_id = u && v.last_seen != t) = true := by
      rcases hhit with ⟨v, hv, hu, hs⟩
      simp only [List.any_eq_true]
      exact ⟨v, hv, by simp [hu, hs]⟩
    simp only [updateLastSeen, hfired, if_true, List.length_map]
    rw [update_session_max_viewers_eq_max]
  · intro ops
    exact execViewerOps_max_eq ops initViewerState (by simp [initViewerState])

/-- Concrete instantiation of `c1_max_viewers_lifetime_peak`: its second
and third conjuncts applied to an explicit state, with their hypotheses
discharged by evaluation. -/
theorem c1_max_viewers_lifetime_peak_witness :
    (insertViewer initViewerState 7 1 2).max_viewers =
      max initViewerState.max_viewers (insertViewer initViewerState 7 1 2).viewers.length ∧
    (updateLastSeen (ViewerState.mk [ViewerRow.mk 7 1 2] 1) 7 9).max_viewers =
      max (ViewerState.mk [ViewerRow.mk 7 1 2] 1).max_viewers
        (updateLastSeen (ViewerState.mk [ViewerRow.mk 7 1 2] 1) 7 9).viewers.length := by
  constructor
  · exact c1_max_viewers_lifetime_peak.2.1 initViewerState 7 1 2
      (by intro v hv; simp [initViewerState] at hv)
  · exact c1_max_viewers_lifetime_peak.2.2.1 (ViewerState.mk [ViewerRow.mk 7 1 2] 1) 7 9
      ⟨ViewerRow.mk 7 1 2, by simp, rfl, by decide⟩

/-! ## Unread counts agree with the spec (claim C2) -/

/-- C2: for every thread or session, the unread count the inbox pages
compute equals the number of the other user's messages strictly newer than
the user's `last_read_at` watermark when a read record with a non-null
`last_read_at` exists, and the total number of the other user's messages
otherwise. -/
theorem c2_unread_count_matches_spec (msgs : List Msg) (otherUserId : Nat)
    (readData : Option ReadRow) :
    computeUnread msgs otherUserId readData =
      specUnreadCount msgs otherUserId (readWatermark readData) := by
  cases readData with
  | none => rfl
  | some rd =>
    cases h : rd.last_read_at with
    | none => simp [computeUnread, specUnreadCount, readWatermark, h]
    | some t => simp [computeUnread, specUnreadCount, readWatermark, h]

/-! ## The viewer list (claim C3) -/

/-- C3 as stated is false: with eleven active non-participant viewers the
displayed list is capped at 10 entries, so the earliest-joined active
viewer (user 1) satisfies the 2-minute window and is not a participant,
yet is absent from `loadViewers`. -/
theorem c3_viewer_list_counterexample :
    ViewerRow.mk 1 1 100000 ∈ activeNonParticipants c3Rows 100 101 100000 ∧
    ViewerRow.mk 1 1 100000 ∉ loadViewers c3Rows 100 101 100000 := by
  decide

theorem loadViewers_mem_sound (rows : List ViewerRow) (userA userB : Nat) (now : Int)
    (v : ViewerRow) (hv : v ∈ loadViewers rows userA userB now) :
    v ∈ rows ∧ isActiveViewer now v = true ∧ isNonParticipant userA userB v = true := by
  simp only [loadViewers] at hv
  have h1 := (mem_sortDescBy _ _ v).mp (List.mem_of_mem_take hv)
  have h2 := List.mem_filter.mp h1
  have h3 := (mem_sortDescBy _ _ v).mp (List.mem_of_mem_take h2.1)
  have h4 := List.mem_filter.mp h3
  exact ⟨h4.1, h4.2, h2.2⟩

theorem loadViewers_exact (rows : List ViewerRow) (userA userB : Nat) (now : Int)
    (hact : (rows.filter (isActiveViewer now)).length ≤ 20)
    (hnp : (activeNonParticipants rows userA userB now).length ≤ 10) (v : ViewerRow) :
    v ∈ loadViewers rows userA userB now ↔ v ∈ activeNonParticipants rows userA userB now := by
  have htake20 :
      (sortDescBy (fun v => v.joined_at) (rows.filter (isActiveViewer now))).take 20 =
        sortDescBy (fun v => v.joined_at) (rows.filter (isActiveViewer now)) :=
    List.take_of_length_le (by rw [length_sortDescBy]; exact hact)
  have hnplen :
      ((sortDescBy (fun v => v.joined_at) (rows.filter (isActiveViewer now))).filter
          (isNonParticipant userA userB)).length =
        (activeNonParticipants rows userA userB now).length :=
    ((perm_sortDescBy (fun v => v.joined_at) (rows.filter (isActiveViewer now))).filter
      (isNonParticipant userA userB)).length_eq
  have htake10 :
      (sortDescBy (fun v => v.joined_at)
          ((sortDescBy (fun v => v.joined_at) (rows.filter (isActiveViewer now))).filter
            (isNonParticipant userA userB))).take 10 =
        sortDescBy (fun v => v.joined_at)
          ((sortDescBy (fun v => v.joined_at) (rows.filter (isActiveViewer now))).filter
            (isNonParticipant userA userB)) :=
    List.take_of_length_le (by rw [length_sortDescBy, hnplen]; exact hnp)
  simp only [loadViewers, htake20, htake10, mem_sortDescBy, List.mem_filter,
    activeNonParticipants]

/-- C3 (amended): every entry of the viewer list is a viewer row seen
within the past 2 minutes and is not a participant; the list is sorted by
`joined_at` descending and has at most 10 entries; it contains exactly the
active non-participant rows whenever at most 20 rows are active and at most
10 of those are non-participants (the query fetches at most 20 rows and the
display keeps at most 10); and the authenticated viewer's heartbeat runs
every 30 seconds, setting their own row's `last_seen` to the current
time. -/
theorem c3_viewer_list_amended :
    (∀ (rows : List ViewerRow) (userA userB : Nat) (now : Int) (v : ViewerRow),
      v ∈ loadViewers rows userA userB now →
      v ∈ rows ∧ isActiveViewer now v = true ∧ isNonParticipant userA userB v = true) ∧
    (∀ (rows : List ViewerRow) (userA userB : Nat) (now : Int),
      SortedDescBy (fun v => v.joined_at) (loadViewers rows userA userB now)) ∧
    (∀ (rows : List ViewerRow) (userA userB : Nat) (now : Int),
      (loadViewers rows userA userB now).length ≤ 10) ∧
    (∀ (rows : List ViewerRow) (userA userB : Nat) (now : Int),
      (rows.filter (isActiveViewer now)).length ≤ 20 →
      (activeNonParticipants rows userA userB now).length ≤ 10 →
      ∀ v : ViewerRow,
        v ∈ loadViewers rows userA userB now ↔
          v ∈ activeNonParticipants rows userA userB now) ∧
    (heartbeatIntervalMs = 30 * 1000 ∧
      ∀ (rows : List ViewerRow) (me : Nat) (now : Int) (v : ViewerRow),
        v ∈ heartbeatTick rows me now → v.user_id = me → v.last_seen = now) := by
  refine ⟨loadViewers_mem_sound, ?_, ?_, loadViewers_exact, rfl, ?_⟩
  · intro rows userA userB now
    exact sortedDescBy_sublist (List.take_sublist _ _) (sortedDescBy_sortDescBy _ _)
  · intro rows userA userB now
    exact List.length_take_le _ _
  · intro rows me now v hv hme
    simp only [heartbeatTick, List.mem_map] at hv
    rcases hv with ⟨w, _, hw⟩
    by_cases h : w.user_id = me
    · rw [← hw]
      simp [h]
    · rw [← hw] at hme
      simp only [if_neg h] at hme
      exact absurd hme h

/-- Concrete instantiation of `c3_viewer_list_amended`: its hypotheses
discharged at explicit inputs (a singleton viewer table and a one-row
heartbeat). -/
theorem c3_viewer_list_amended_witness :
    (ViewerRow.mk 11 11 100000 ∈ c3Rows ∧
      isActiveViewer 100000 (ViewerRow.mk 11 11 100000) = true ∧
      isNonParticipant 100 101 (ViewerRow.mk 11 11 100000) = true) ∧
    (ViewerRow.mk 5 5 100000 ∈ loadViewers [ViewerRow.mk 5 5 100000] 100 101 100000 ↔
      ViewerRow.mk 5 5 100000 ∈ activeNonParticipants [ViewerRow.mk 5 5 100000] 100 101 100000) ∧
    (ViewerRow.mk 3 0 99).last_seen = 99 := by
  refine ⟨?_, ?_, ?_⟩
  · exact c3_viewer_list_amended.1 c3Rows 100 101 100000 (ViewerRow.mk 11 11 100000) (by decide)
  · exact c3_viewer_list_amended.2.2.2.1 [ViewerRow.mk 5 5 100000] 100 101 100000
      (by decide) (by decide) (ViewerRow.mk 5 5 100000)
  · exact c3_viewer_list_amended.2.2.2.2.2 [ViewerRow.mk 3 0 0] 3 99 (ViewerRow.mk 3 0 99)
      (by decide) rfl

/-! ## Message inserts (claim C4) -/

theorem runMessageInserts_invariant (sessions : List SessionRow) :
    ∀ (attempts : List (Option Nat × MessageRow)) (stored : List MessageRow),
      (∀ m ∈ stored, messageTypeOk m.message_type = true ∧
        ∃ s ∈ sessions, s.id = m.session_id ∧
          (m.sender_id = s.user_a ∨ m.sender_id = s.user_b)) →
      ∀ m ∈ runMessageInserts sessions stored attempts,
        messageTypeOk m.message_type = true ∧
        ∃ s ∈ sessions, s.id = m.session_id ∧
          (m.sender_id = s.user_a ∨ m.sender_id = s.user_b) := by
  intro attempts
  induction attempts with
  | nil => exact fun stored hst => hst
  | cons p rest ih =>
    intro stored hst
    obtain ⟨auth, m0⟩ := p
    simp only [runMessageInserts]
    apply ih
    intro m hm
    unfold applyMessageInsert at hm
    by_cases hc : (canInsertMessage sessions auth m0 && messageTypeOk m0.message_type) = true
    · rw [if_pos hc] at hm
      obtain ⟨hins, htype⟩ := (Bool.and_eq_true _ _).mp hc
      rcases List.mem_cons.mp hm with rfl | hm
      · refine ⟨htype, ?_⟩
        unfold canInsertMessage at hins
        cases auth with
        | none => exact absurd hins (by simp)
        | some uid =>
          simp only [Bool.and_eq_true, decide_eq_true_eq, List.any_eq_true,
            Bool.or_eq_true] at hins
          obtain ⟨huid, s, hs, hid, hab⟩ := hins
          exact ⟨s, hs, hid, huid ▸ hab⟩
      · exact hst m hm
    · rw [if_neg hc] at hm
      exact hst m hm

/-- C4: every row that can end up stored in `rp_session_messages` has
`message_type` equal to `"ooc"` or `"narration"` (the CHECK constraint)
and was inserted by an authenticated user equal to its `sender_id` who is
`user_a` or `user_b` of the message's session (the insert policy), so every
message of a session was written by one of its two parties. -/
theorem c4_message_sender_is_participant (sessions : List SessionRow)
    (attempts : List (Option Nat × MessageRow)) (m : MessageRow)
    (hm : m ∈ runMessageInserts sessions [] attempts) :
    (m.message_type = "ooc" ∨ m.message_type = "narration") ∧
    ∃ s ∈ sessions, s.id = m.session_id ∧
      (m.sender_id = s.user_a ∨ m.sender_id = s.user_b) := by
  have h := runMessageInserts_invariant sessions attempts []
    (by intro m hm; cases hm) m hm
  refine ⟨?_, h.2⟩
  have htype := h.1
  unfold messageTypeOk at htype
  simpa using htype

/-- Concrete instantiation of `c4_message_sender_is_participant`: user 10,
a participant of session 1, inserts an `"ooc"` message. -/
theorem c4_message_sender_is_participant_witness :
    ((MessageRow.mk 5 1 10 "ooc" 0).message_type = "ooc" ∨
      (MessageRow.mk 5 1 10 "ooc" 0).message_type = "narration") ∧
    ∃ s ∈ [SessionRow.mk 1 10 20 "active" true false none none],
      s.id = (MessageRow.mk 5 1 10 "ooc" 0).session_id ∧
      ((MessageRow.mk 5 1 10 "ooc" 0).sender_id = s.user_a ∨
        (MessageRow.mk 5 1 10 "ooc" 0).sender_id = s.user_b) :=
  c4_message_sender_is_participant [SessionRow.mk 1 10 20 "active" true false none none]
    [(some 10, MessageRow.mk 5 1 10 "ooc" 0)] (MessageRow.mk 5 1 10 "ooc" 0) (by decide)

/-! ## Session page access (claim C5) -/

/-- C5 as stated is false: the claim covers every user, but an
unauthenticated visitor to a public session — who is neither participant
and for whom `is_public` is true — is redirected to `/login` before the
session is even fetched, so the load fails although the claim places a
failure only on private sessions, and the visitor is never admitted in
public-view mode. -/
theorem c5_session_access_counterexample :
    (loadSessionOutcome none (SessionRow.mk 9 1 2 "active" true true none none)).isError =
      true ∧
    (SessionRow.mk 9 1 2 "active" true true none none).is_public = true ∧
    loadSessionOutcome none (SessionRow.mk 9 1 2 "active" true true none none) ≠
      LoadOutcome.ok true := by
  decide

/-- C5 (amended): an unauthenticated visitor is always redirected to
`/login` before the session is fetched, public or not; for an
authenticated user, loading the session page fails (and loads no messages)
iff the user is neither `user_a` nor `user_b` and the session is not
public — whether through the RLS select policies (`"Session not found"`)
or the client-side check — and an authenticated non-participant on a
public session is admitted in public-view mode. -/
theorem c5_session_access_amended (uid : Nat) (s : SessionRow) :
    ((loadSessionOutcome (some uid) s).isError = true ↔
      (uid ≠ s.user_a ∧ uid ≠ s.user_b) ∧ s.is_public = false) ∧
    ((uid ≠ s.user_a ∧ uid ≠ s.user_b) → s.is_public = true →
      loadSessionOutcome (some uid) s = .ok true) ∧
    (∀ s2 : SessionRow, loadSessionOutcome none s2 = .needLogin) := by
  refine ⟨?_, ?_, fun s2 => rfl⟩ <;>
    by_cases ha : uid = s.user_a <;> by_cases hb : uid = s.user_b <;>
      cases hpub : s.is_public <;>
        simp [loadSessionOutcome, canSelectSession, LoadOutcome.isError, ha, hb, hpub,
          eq_comm]

/-- Concrete instantiation of `c5_session_access_amended`: authenticated
user 5 is not a participant of the public session between users 1 and 2
and is admitted in public-view mode. -/
theorem c5_session_access_amended_witness :
    loadSessionOutcome (some 5) (SessionRow.mk 9 1 2 "active" true true none none) =
      .ok true :=
  (c5_session_access_amended 5 (SessionRow.mk 9 1 2 "active" true true none none)).2.1
    (by refine ⟨?_, ?_⟩ <;> decide) rfl

/-! ## Inactivity reminders (claim C6) -/

/-- C6: a reminder is never sent when fewer than 5 minutes have elapsed
since `last_message_at`, and never when `reminder_sent_at` is non-null and
less than one hour old; and when one is sent it is inserted as an `"ooc"`
message and `reminder_sent_at` is set to the current time. -/
theorem c6_inactivity_reminder (now : Int) (c : InactivityCtx) :
    (∀ lm : Int, c.session.last_message_at = some lm →
      now - lm < 5 * 60 * 1000 → checkInactivityTick now c = none) ∧
    (∀ r : Int, c.session.reminder_sent_at = some r →
      now - r < 60 * 60 * 1000 → checkInactivityTick now c = none) ∧
    (∀ eff : ReminderEffect, checkInactivityTick now c = some eff →
      eff.insertedType = "ooc" ∧ eff.newReminderSentAt = now) := by
  refine ⟨?_, ?_, ?_⟩
  · intro lm hlm hlt
    simp [checkInactivityTick, shouldSendReminder, hlm]
    intro h
    exact absurd h (by omega)
  · intro r hr hlt
    cases hlm : c.session.last_message_at with
    | none => simp [checkInactivityTick, shouldSendReminder, hlm]
    | some lm =>
      simp [checkInactivityTick, shouldSendReminder, hlm, hr]
      intro h1 h2
      omega
  · intro eff heff
    unfold checkInactivityTick at heff
    split at heff
    · obtain rfl := (Option.some.injEq _ _).mp heff
      exact ⟨rfl, rfl⟩
    · cases heff

/-- Concrete instantiation of `c6_inactivity_reminder`: a session whose
last message is 5 minutes old, with no prior reminder, sends an `"ooc"`
reminder stamped with the current time; one whose last message is 1 second
old sends nothing. -/
theorem c6_inactivity_reminder_witness :
    checkInactivityTick 1000
      (InactivityCtx.mk (SessionRow.mk 1 10 20 "active" true false (some 0) none) none) =
      none ∧
    (ReminderEffect.mk "ooc" 300000).insertedType = "ooc" ∧
    (ReminderEffect.mk "ooc" 300000).newReminderSentAt = 300000 := by
  constructor
  · exact (c6_inactivity_reminder 1000
      (InactivityCtx.mk (SessionRow.mk 1 10 20 "active" true false (some 0) none) none)).1
      0 rfl (by decide)
  · exact (c6_inactivity_reminder 300000
      (InactivityCtx.mk (SessionRow.mk 1 10 20 "active" true false (some 0) none) none)).2.2
      (ReminderEffect.mk "ooc" 300000) (by decide)

/-! ## `openDmWith` (claim C7) -/

/-- C7: when some `dm_threads` row links the two users in either
orientation, `openDmWith` returns the id of a linking thread with maximal
`created_at` (the most recently created one) and inserts nothing; otherwise
it appends exactly one new thread and returns its id; and a second call
with the same arguments returns the same thread id. -/
theorem c7_open_dm_with (threads : List DmThread) (me other freshId : Nat) (now : Int)
    (freshId2 : Nat) (now2 : Int) :
    ((∃ t ∈ threads, linksPair me other t = true) →
      (openDmWith threads me other freshId now).2 = threads ∧
      ∃ t ∈ threads, linksPair me other t = true ∧
        (openDmWith threads me other freshId now).1 = t.id ∧
        ∀ t2 ∈ threads, linksPair me other t2 = true →
          t2.created_at ≤ t.created_at) ∧
    ((∀ t ∈ threads, linksPair me other t = false) →
      (openDmWith threads me other freshId now).1 = freshId ∧
      (openDmWith threads me other freshId now).2 =
        threads ++ [DmThread.mk freshId me other now]) ∧
    (openDmWith (openDmWith threads me other freshId now).2 me other freshId2 now2).1 =
      (openDmWith threads me other freshId now).1 := by
  refine ⟨?_, ?_, ?_⟩
  · intro hex
    obtain ⟨t0, ht0, hlink0⟩ := hex
    have hne : threads.filter (linksPair me other) ≠ [] := by
      intro hnil
      have : t0 ∈ threads.filter (linksPair me other) :=
        List.mem_filter.mpr ⟨ht0, hlink0⟩
      rw [hnil] at this
      cases this
    obtain ⟨t, rest, hsort, htmem, hmax⟩ :=
      sortDescBy_head_max (fun t => t.created_at) (threads.filter (linksPair me other)) hne
    have htf := List.mem_filter.mp htmem
    refine ⟨by simp [openDmWith, hsort], t, htf.1, htf.2, by simp [openDmWith, hsort], ?_⟩
    intro t2 ht2 hlink2
    exact hmax t2 (List.mem_filter.mpr ⟨ht2, hlink2⟩)
  · intro hnone
    have hfil : threads.filter (linksPair me other) = [] :=
      List.filter_eq_nil_iff.mpr (fun t ht => by rw [hnone t ht]; simp)
    constructor <;> simp [openDmWith, hfil, sortDescBy]
  · cases hm : sortDescBy (fun t => t.created_at) (threads.filter (linksPair me other)) with
    | cons t rest => simp [openDmWith, hm]
    | nil =>
      have hfil : threads.filter (linksPair me other) = [] := by
        have hlen := length_sortDescBy (fun t => t.created_at)
          (threads.filter (linksPair me other))
        rw [hm] at hlen
        exact List.length_eq_zero.mp hlen.symm
      have hnew : linksPair me other (DmThread.mk freshId me other now) = true := by
        simp [linksPair]
      simp [openDmWith, hm, hfil, List.filter_append, hnew, sortDescBy, insertDescBy]

/-- Concrete instantiation of `c7_open_dm_with`: with one existing thread
linking users 1 and 2, `openDmWith` returns its id and leaves the table
unchanged. -/
theorem c7_open_dm_with_witness :
    (openDmWith [DmThread.mk 4 2 1 50] 1 2 9 60).2 = [DmThread.mk 4 2 1 50] ∧
    ∃ t ∈ [DmThread.mk 4 2 1 50], linksPair 1 2 t = true ∧
      (openDmWith [DmThread.mk 4 2 1 50] 1 2 9 60).1 = t.id ∧
      ∀ t2 ∈ [DmThread.mk 4 2 1 50], linksPair 1 2 t2 = true →
        t2.created_at ≤ t.created_at :=
  (c7_open_dm_with [DmThread.mk 4 2 1 50] 1 2 9 60 9 60).1
    ⟨DmThread.mk 4 2 1 50, by decide, by decide⟩

/-! ## `calculate_response_time` (claim C8) -/

/-- C8: on every message insert the trigger sets the session's
`last_message_at` to the new message's `created_at`; it inserts an
`rp_response_times` row exactly when the session's `is_active` is true and
an earlier message from a different sender exists in the session; and the
inserted row credits the new sender with the difference between the new
message's `created_at` and that of the latest such earlier message. -/
theorem c8_response_time_trigger (sessions : List SessionRow) (msgs : List MessageRow)
    (newMsg : MessageRow) :
    (∀ s' ∈ (calculate_response_time sessions msgs newMsg).2,
      s'.id = newMsg.session_id → s'.last_message_at = some newMsg.created_at) ∧
    ((∃ r, (calculate_response_time sessions msgs newMsg).1 = some r) ↔
      ((sessions.find? (fun s => s.id = newMsg.session_id)).map (·.is_active) = some true ∧
        prevCandidates msgs newMsg ≠ [])) ∧
    (∀ r, (calculate_response_time sessions msgs newMsg).1 = some r →
      r.user_id = newMsg.sender_id ∧ r.session_id = newMsg.session_id ∧
      ∃ p ∈ prevCandidates msgs newMsg,
        r.response_time_seconds = newMsg.created_at - p.created_at ∧
        ∀ q ∈ prevCandidates msgs newMsg, q.created_at ≤ p.created_at) := by
  refine ⟨?_, ?_, ?_⟩
  · intro s' hs' hid
    simp only [calculate_response_time, List.mem_map] at hs'
    obtain ⟨s, _, rfl⟩ := hs'
    by_cases h : s.id = newMsg.session_id
    · simp [h]
    · rw [if_neg h] at hid
      exact absurd hid h
  · constructor
    · rintro ⟨r, hr⟩
      simp only [calculate_response_time] at hr
      by_cases hact :
          (sessions.find? (fun s => s.id = newMsg.session_id)).map (·.is_active) = some true
      · refine ⟨hact, ?_⟩
        intro hnil
        rw [if_pos hact, hnil] at hr
        simp [sortDescBy] at hr
      · rw [if_neg hact] at hr
        cases hr
    · rintro ⟨hact, hne⟩
      obtain ⟨t, rest, hsort, -, -⟩ := sortDescBy_head_max (fun p => p.created_at) _ hne
      exact ⟨_, by simp only [calculate_response_time]; rw [if_pos hact, hsort]⟩
  · intro r hr
    simp only [calculate_response_time] at hr
    by_cases hact :
        (sessions.find? (fun s => s.id = newMsg.session_id)).map (·.is_active) = some true
    · rw [if_pos hact] at hr
      cases hsort : sortDescBy (fun p => p.created_at) (prevCandidates msgs newMsg) with
      | nil =>
        rw [hsort] at hr
        cases hr
      | cons prev rest =>
        rw [hsort] at hr
        obtain rfl := ((Option.some.injEq _ _).mp hr).symm
        have hne : prevCandidates msgs newMsg ≠ [] := by
          intro h0
          rw [h0] at hsort
          simp [sortDescBy] at hsort
        obtain ⟨t, rest2, hsort2, htm, hmax⟩ :=
          sortDescBy_head_max (fun p => p.created_at) _ hne
        rw [hsort] at hsort2
        obtain ⟨rfl, -⟩ : prev = t ∧ rest = rest2 := by
          injection hsort2 with h1 h2
          exact ⟨h1, h2⟩
        exact ⟨rfl, rfl, prev, htm, rfl, hmax⟩
    · rw [if_neg hact] at hr
      cases hr

/-- Concrete instantiation of `c8_response_time_trigger`: user 10 answers
user 20's message of time 100 at time 130 in active session 1, crediting a
30-second response and stamping `last_message_at` with 130. -/
theorem c8_response_time_trigger_witness :
    ((SessionRow.mk 1 10 20 "active" true false (some 130) none).last_message_at =
      some (MessageRow.mk 2 1 10 "ooc" 130).created_at) ∧
    (ResponseTimeRow.mk 10 1 30).user_id = (MessageRow.mk 2 1 10 "ooc" 130).sender_id ∧
    (ResponseTimeRow.mk 10 1 30).session_id = (MessageRow.mk 2 1 10 "ooc" 130).session_id ∧
    ∃ p ∈ prevCandidates [MessageRow.mk 1 1 20 "ooc" 100] (MessageRow.mk 2 1 10 "ooc" 130),
      (ResponseTimeRow.mk 10 1 30).response_time_seconds =
        (MessageRow.mk 2 1 10 "ooc" 130).created_at - p.created_at ∧
      ∀ q ∈ prevCandidates [MessageRow.mk 1 1 20 "ooc" 100] (MessageRow.mk 2 1 10 "ooc" 130),
        q.created_at ≤ p.created_at :=
  ⟨(c8_response_time_trigger [SessionRow.mk 1 10 20 "active" true false none none]
      [MessageRow.mk 1 1 20 "ooc" 100] (MessageRow.mk 2 1 10 "ooc" 130)).1
      (SessionRow.mk 1 10 20 "active" true false (some 130) none) (by decide) rfl,
    (c8_response_time_trigger [SessionRow.mk 1 10 20 "active" true false none none]
      [MessageRow.mk 1 1 20 "ooc" 100] (MessageRow.mk 2 1 10 "ooc" 130)).2.2
      (ResponseTimeRow.mk 10 1 30) (by decide)⟩

/-! ## The sessions page and the `"paused"` status (claim C9) -/

/-- C9: the CHECK constraint admits only `"active"` and `"closed"`, so no
stored session ever has the client-side `"paused"` status and none matches
the sessions page's `"paused"` filter. -/
theorem c9_paused_status_unreachable (status : String)
    (h : statusCheckOk status = true) :
    status ≠ "paused" ∧ sessionMatchesFilter status "paused" = false := by
  simp only [statusCheckOk, Bool.or_eq_true, decide_eq_true_eq] at h
  have hne : status ≠ "paused" := by
    rcases h with rfl | rfl <;> decide
  refine ⟨hne, ?_⟩
  simp [sessionMatchesFilter, hne]

/-- Concrete instantiation of `c9_paused_status_unreachable` at the
`"active"` status. -/
theorem c9_paused_status_unreachable_witness :
    "active" ≠ "paused" ∧ sessionMatchesFilter "active" "paused" = false :=
  c9_paused_status_unreachable "active" (by decide)

/-! ## Anonymous visitors and viewer tracking (claim C10) -/

/-- C10: an unauthenticated visitor to a public session triggers no viewer
upsert (`trackViewer` returns immediately), and the insert policy rejects
any row for `auth.uid()` null, so an anonymous attempt leaves the viewer
table and `max_viewers` unchanged — anonymous spectators never appear in
the viewer list and never affect `max_viewers`. -/
theorem c10_anonymous_never_tracked :
    (∀ now : Int, trackViewerUpsert none now = none) ∧
    (∀ row : ViewerUpsert, canInsertViewer none row = false) ∧
    (∀ (s : ViewerState) (row : ViewerUpsert) (joined : Int),
      guardedInsertViewer none s row joined = s) := by
  refine ⟨fun _ => rfl, fun _ => rfl, ?_⟩
  intro s row joined
  simp [guardedInsertViewer, canInsertViewer]
